import Mathlib

/-!
Shallow embedding of the Simulated Realtime Transcript Playback Engine of the
iorderai-portal repository: the live-demo logic of `CallDetailModal`
(`src/unnamed/part_001`, lines 560-672) that replays a call transcript as if it
were happening live, plus the surrounding binding/cleanup lifecycle of the
component (it is mounted at line 1451 without a `key`, so selecting another
call rebinds the same component instance).

Conventions of the embedding:
* JavaScript string indexing (`slice`, `.length`) is modelled over the list of
  characters of a Lean `String`; all content in the source lives in the basic
  multilingual plane, where the two notions of length agree.
* `Date.now()` and `new Date().toISOString()` are modelled by oracle strings
  supplied per step (`stamps`, `times`).
* Timers are modelled explicitly: which timer a React effect schedules, what a
  firing does to the component state, and what the effect cleanup clears.
-/

namespace IOrderPortal

/-- `role: 'customer' | 'ai'` of a transcript message. -/
inductive Role where
  | customer
  | ai
deriving DecidableEq, Repr

/-- `status` of a call record: `'completed' | 'missed' | 'in_progress'`. -/
inductive CallStatus where
  | completed
  | missed
  | in_progress
deriving DecidableEq, Repr

/-- `CallMessage` as used by `CallDetailModal`: id, role, content, timestamp
(the timestamp is a string, empty for not-yet-committed messages). -/
structure CallMessage where
  id : String
  role : Role
  content : String
  timestamp : String
deriving DecidableEq, Repr

/-- The fields of `CallRecord` that the playback engine reads. -/
structure CallRecord where
  id : String
  status : CallStatus
  transcript : List CallMessage
deriving DecidableEq, Repr

/-- The fixed demo continuation (`simulatedContinuation`, part_001 lines
568-581), verbatim from the source. -/
def simulatedContinuation : List CallMessage := [
  { id := "sim1", role := .customer, content := "我想点一份宫保鸡丁", timestamp := "" },
  { id := "sim2", role := .ai, content := "好的，宫保鸡丁一份 $15.99。请问还需要别的吗？", timestamp := "" },
  { id := "sim3", role := .customer, content := "再来一份炒饭，少放盐", timestamp := "" },
  { id := "sim4", role := .ai, content := "收到，炒饭 $12.99，已备注少放盐。要不要再来点饮料或者小吃？我们的柠檬茶和春卷都挺受欢迎的。", timestamp := "" },
  { id := "sim5", role := .customer, content := "那来一杯柠檬茶吧", timestamp := "" },
  { id := "sim6", role := .ai, content := "好的，柠檬茶 $3.99。您的订单：宫保鸡丁、炒饭少盐、柠檬茶，小计 $32.97。请问外卖还是自取？", timestamp := "" },
  { id := "sim7", role := .customer, content := "外卖，送到 123 Main Street", timestamp := "" },
  { id := "sim8", role := .ai, content := "好的，配送到 123 Main Street。加上配送费和税，总计 $42.55。支付方面，您可以用上次绑定的尾号 4567 的卡直接付款，或者绑定一张新卡，您选哪个？", timestamp := "" },
  { id := "sim9", role := .customer, content := "绑定新卡吧", timestamp := "" },
  { id := "sim10", role := .ai, content := "没问题。我现在给您发一条短信，里面有个链接，点进去就可以绑定新卡了。绑定成功后，下次您报尾号就能直接付款，不用再走一遍这个流程。", timestamp := "" },
  { id := "sim11", role := .customer, content := "好的，我看到短信了", timestamp := "" },
  { id := "sim12", role := .ai, content := "收到您的新卡绑定成功，尾号 8899。已完成扣款 $42.55，订单已生成。预计 30-40 分钟送达，祝您用餐愉快！", timestamp := "" }
]

/-- The component state driving playback (the `useState` hooks, lines 589-594),
the `PlaybackState` projection of the spec. -/
structure PlaybackState where
  displayedMessages : List CallMessage
  currentTypingText : String
  isTyping : Bool
  typingRole : Role
  messageIndex : Nat
  isLiveDemo : Bool
deriving DecidableEq, Repr

/-- The `useState` initial values: `[]`, `''`, `false`, `'ai'`, `0`, `false`. -/
def initialState : PlaybackState :=
  { displayedMessages := []
    currentTypingText := ""
    isTyping := false
    typingRole := .ai
    messageIndex := 0
    isLiveDemo := false }

/-- The init effect (lines 602-613): an `in_progress` call enables the live
demo with `displayedMessages = transcript.slice(0, -1)` and `messageIndex = 0`;
any other status shows the whole transcript with the live demo off. -/
def initEffect (call : CallRecord) (s : PlaybackState) : PlaybackState :=
  if call.status = .in_progress then
    { s with isLiveDemo := true
             displayedMessages := call.transcript.dropLast
             messageIndex := 0 }
  else
    { s with displayedMessages := call.transcript, isLiveDemo := false }

/-- `call.transcript.slice(-1)`: the last element as a one-element list, empty
when the transcript is empty. -/
def lastSlice (ts : List CallMessage) : List CallMessage := ts.drop (ts.length - 1)

/-- `allMessages = [...call.transcript.slice(-1), ...simulatedContinuation]`
(line 619), parameterized by the continuation. -/
def allMessages (ts cont : List CallMessage) : List CallMessage := lastSlice ts ++ cont

/-- `typingSpeed` (line 631): 30ms per character for the AI, 50ms otherwise. -/
def typingSpeed (m : CallMessage) : Nat := if m.role = .ai then 30 else 50

/-- `pauseBeforeTyping` (line 632): 1500ms before a customer message, 800ms
before an AI message. -/
def pauseBeforeTyping (m : CallMessage) : Nat := if m.role = .customer then 1500 else 800

/-- What one run of the live-demo effect body (lines 616-665) schedules:
nothing (early return when the live demo is off), the 3000ms loop-reset
timeout (lines 621-628), or the pre-typing pause timeout that will start the
typewriter for the current message (lines 630-662). `none` models an
out-of-bounds access to `allMessages[messageIndex]`, which the guard at line
621 is meant to prevent. -/
inductive ScheduledAction where
  | noTimer
  | loopReset
  | pauseThenType (m : CallMessage)
deriving DecidableEq, Repr

/-- Decision logic of the live-demo effect body (lines 616-632). -/
def liveEffect (ts cont : List CallMessage) (s : PlaybackState) : Option ScheduledAction :=
  if s.isLiveDemo = false then some .noTimer
  else if (allMessages ts cont).length ≤ s.messageIndex then some .loopReset
  else
    match (allMessages ts cont)[s.messageIndex]? with
    | some m => some (.pauseThenType m)
    | none => none

/-- The committed copy of a message (lines 651-655): same content and role,
`id` extended with `-` and a fresh stamp (`Date.now()`), `timestamp` set to the
commit time (`new Date().toISOString()`). -/
def commitMessage (m : CallMessage) (stamp timeStr : String) : CallMessage :=
  { m with id := m.id ++ "-" ++ stamp, timestamp := timeStr }

/-- Net effect on the component state of driving one message from the pause
through the typewriter to its commit (lines 636-657): the typing role is that
of the message, typing ends with the buffer cleared, the committed copy is
appended and the cursor advances by one. -/
def applyCommit (m : CallMessage) (stamp timeStr : String) (s : PlaybackState) : PlaybackState :=
  { s with typingRole := m.role
           isTyping := false
           currentTypingText := ""
           displayedMessages := s.displayedMessages ++ [commitMessage m stamp timeStr]
           messageIndex := s.messageIndex + 1 }

/-- Firing of the loop-reset timeout (lines 623-626): the displayed list goes
back to `transcript.slice(0, -1)` and the cursor back to 0. -/
def applyLoopReset (ts : List CallMessage) (s : PlaybackState) : PlaybackState :=
  { s with displayedMessages := ts.dropLast, messageIndex := 0 }

/-- One message-level step of the live demo: run the effect body and let the
timer it schedules run to completion. -/
def stepLive (ts cont : List CallMessage) (stamp timeStr : String) (s : PlaybackState) : PlaybackState :=
  match liveEffect ts cont s with
  | some .noTimer => s
  | some .loopReset => applyLoopReset ts s
  | some (.pauseThenType m) => applyCommit m stamp timeStr s
  | none => s

/-- `k` message-level steps, with stamp and time oracles indexed by step. -/
def runLive (ts cont : List CallMessage) (stamps times : Nat → String) : Nat → PlaybackState → PlaybackState
  | 0, s => s
  | k + 1, s => stepLive ts cont (stamps k) (times k) (runLive ts cont stamps times k s)

/-- `content.slice(0, t)`: the prefix of `content` revealed after `t`
typewriter ticks (line 643 with `t = charIndex + 1`). -/
def typeAdvance (content : String) (t : Nat) : String := ⟨content.data.take t⟩

/-- The per-message typewriter (`typeTimer`, lines 640-659): the captured
`charIndex`, the current `currentTypingText`, whether `clearInterval` has run,
and how many times completion (the commit branch) has been signalled. -/
structure TypingTicker where
  message : CallMessage
  charIndex : Nat
  text : String
  cleared : Bool
  completions : Nat
deriving DecidableEq, Repr

/-- State right after the pause timer fires (lines 636-640): `charIndex = 0`,
buffer cleared, interval armed. -/
def startTicker (m : CallMessage) : TypingTicker :=
  { message := m, charIndex := 0, text := "", cleared := false, completions := 0 }

/-- One firing of the `typeTimer` interval callback (lines 641-659). A cleared
interval never fires again, so `tick` fixes cleared states. -/
def tick (tk : TypingTicker) : TypingTicker :=
  if tk.cleared then tk
  else if tk.charIndex < tk.message.content.length then
    { tk with text := typeAdvance tk.message.content (tk.charIndex + 1)
              charIndex := tk.charIndex + 1 }
  else
    { tk with cleared := true, text := "", completions := tk.completions + 1 }

/-- `k` firings of the interval. -/
def ticksRun (tk : TypingTicker) : Nat → TypingTicker
  | 0 => tk
  | k + 1 => tick (ticksRun tk k)

/-- The component together with its outstanding timers: the pending pause
timeout (line 635) with the message it captured, the running `typeTimer`
interval (line 641) with its captured message and `charIndex`, and the pending
loop-reset timeout (line 623). -/
structure LiveSession where
  state : PlaybackState
  pausePending : Option CallMessage
  typeInterval : Option (CallMessage × Nat)
  loopPending : Bool
deriving DecidableEq, Repr

/-- The live-demo effect body (lines 616-665): schedules the timer that
`liveEffect` decides on; existing timers are untouched. -/
def runLiveEffect (cont ts : List CallMessage) (w : LiveSession) : LiveSession :=
  match liveEffect ts cont w.state with
  | some .noTimer => w
  | some .loopReset => { w with loopPending := true }
  | some (.pauseThenType m) => { w with pausePending := some m }
  | none => w

/-- The cleanup of the live-demo effect: `clearTimeout(timer)` at line 627 for
the loop branch, `clearTimeout(pauseTimer)` at line 664 for the typing branch.
The `clearInterval(typeTimer)` at line 661 is the return value of the
`setTimeout` callback, which `setTimeout` discards, so cleanup never clears a
running `typeTimer` interval. -/
def cleanupLiveEffect (w : LiveSession) : LiveSession :=
  { w with pausePending := none, loopPending := false }

/-- Firing of the pause timeout (lines 635-640): set the typing role, raise
`isTyping`, clear the buffer and arm the interval at `charIndex = 0`. -/
def firePause (w : LiveSession) : LiveSession :=
  match w.pausePending with
  | none => w
  | some m =>
    { w with pausePending := none
             typeInterval := some (m, 0)
             state := { w.state with typingRole := m.role, isTyping := true, currentTypingText := "" } }

/-- One firing of the `typeTimer` interval (lines 641-659) against the
component state: either reveal one more character, or clear the interval and
commit the captured message. -/
def fireTypeTick (stamp timeStr : String) (w : LiveSession) : LiveSession :=
  match w.typeInterval with
  | none => w
  | some (m, ci) =>
    if ci < m.content.length then
      { w with typeInterval := some (m, ci + 1)
               state := { w.state with currentTypingText := typeAdvance m.content (ci + 1) } }
    else
      { w with typeInterval := none
               state := { w.state with
                            isTyping := false
                            currentTypingText := ""
                            displayedMessages := w.state.displayedMessages ++ [commitMessage m stamp timeStr]
                            messageIndex := w.state.messageIndex + 1 } }

/-- Binding the component to a call: the init effect runs on the fresh state
and the live-demo effect schedules its first timer. -/
def bindSession (cont : List CallMessage) (call : CallRecord) : LiveSession :=
  runLiveEffect cont call.transcript
    { state := initEffect call initialState
      pausePending := none
      typeInterval := none
      loopPending := false }

/-- Rebinding the mounted component to another call (the `call` prop at line
1452 changes, no `key` forces a remount): React runs the effect cleanups, then
the init effect for the new call, then the live-demo effect re-runs. -/
def rebind (cont : List CallMessage) (newCall : CallRecord) (w : LiveSession) : LiveSession :=
  runLiveEffect cont newCall.transcript
    { cleanupLiveEffect w with state := initEffect newCall (cleanupLiveEffect w).state }

/-! ### Concrete fixtures used by witnesses and counterexamples -/

/-- One-message transcript: an assistant seed with content `"A"`. -/
def demoSeed : CallMessage := { id := "m0", role := .ai, content := "A", timestamp := "10:00" }

/-- First continuation turn of the two-message demo script: customer `"Q1"`. -/
def demoQ1 : CallMessage := { id := "q1", role := .customer, content := "Q1", timestamp := "" }

/-- Second continuation turn of the two-message demo script: assistant `"A1"`. -/
def demoA1 : CallMessage := { id := "a1", role := .ai, content := "A1", timestamp := "" }

/-- An in-progress call whose transcript is just the seed `"A"`. -/
def demoCall : CallRecord := { id := "cA", status := .in_progress, transcript := [demoSeed] }

/-- An in-progress call with an empty transcript. -/
def emptyCall : CallRecord := { id := "cE", status := .in_progress, transcript := [] }

/-- A completed call with a five-message transcript. -/
def staticCall : CallRecord :=
  { id := "cS"
    status := .completed
    transcript := [
      { id := "h1", role := .customer, content := "hello", timestamp := "t1" },
      { id := "h2", role := .ai, content := "hi there", timestamp := "t2" },
      { id := "h3", role := .customer, content := "order", timestamp := "t3" },
      { id := "h4", role := .ai, content := "sure", timestamp := "t4" },
      { id := "h5", role := .customer, content := "thanks", timestamp := "t5" }] }

/-- A stamp/time oracle used by witnesses: the decimal numeral of the step. -/
def stepStamp : Nat → String := fun n => Nat.repr n

/-! ### Helper lemmas -/

lemma string_append_left_cancel (p a b : String) (h : p ++ a = p ++ b) : a = b := by
  have hd : p.data ++ a.data = p.data ++ b.data := by
    have h2 := congrArg String.data h
    cases p; cases a; cases b
    exact h2
  exact String.ext (List.append_cancel_left hd)

lemma liveEffect_off (ts cont : List CallMessage) (s : PlaybackState)
    (h : s.isLiveDemo = false) : liveEffect ts cont s = some .noTimer := by
  simp [liveEffect, h]

lemma liveEffect_of_lt (ts cont : List CallMessage) (s : PlaybackState)
    (h1 : s.isLiveDemo = true) (h2 : s.messageIndex < (allMessages ts cont).length) :
    liveEffect ts cont s = some (.pauseThenType ((allMessages ts cont).get ⟨s.messageIndex, h2⟩)) := by
  simp [liveEffect, h1, Nat.not_le.mpr h2, List.getElem?_eq_getElem h2]

lemma liveEffect_of_ge (ts cont : List CallMessage) (s : PlaybackState)
    (h1 : s.isLiveDemo = true) (h2 : (allMessages ts cont).length ≤ s.messageIndex) :
    liveEffect ts cont s = some .loopReset := by
  simp [liveEffect, h1, h2]

lemma stepLive_off (ts cont : List CallMessage) (stamp timeStr : String) (s : PlaybackState)
    (h : s.isLiveDemo = false) : stepLive ts cont stamp timeStr s = s := by
  simp [stepLive, liveEffect_off ts cont s h]

lemma runLive_off (ts cont : List CallMessage) (f g : Nat → String) (k : Nat)
    (s : PlaybackState) (h : s.isLiveDemo = false) : runLive ts cont f g k s = s := by
  induction k with
  | zero => rfl
  | succ n ih => rw [runLive, ih, stepLive_off ts cont (f n) (g n) s h]

lemma runLive_index (ts cont : List CallMessage) (f g : Nat → String) (s : PlaybackState)
    (h1 : s.isLiveDemo = true) (h0 : s.messageIndex = 0) (k : Nat)
    (hk : k ≤ (allMessages ts cont).length) :
    (runLive ts cont f g k s).messageIndex = k ∧ (runLive ts cont f g k s).isLiveDemo = true := by
  induction k with
  | zero => exact ⟨h0, h1⟩
  | succ n ih =>
    obtain ⟨hi, hl⟩ := ih (Nat.le_of_succ_le hk)
    have hlt : (runLive ts cont f g n s).messageIndex < (allMessages ts cont).length := by
      rw [hi]; exact hk
    rw [runLive, stepLive, liveEffect_of_lt ts cont _ hl hlt]
    exact ⟨by simp [applyCommit, hi], by simp [applyCommit, hl]⟩

lemma ticksRun_le (m : CallMessage) (k : Nat) (hk : k ≤ m.content.length) :
    ticksRun (startTicker m) k
      = { message := m, charIndex := k, text := typeAdvance m.content k
          cleared := false, completions := 0 } := by
  induction k with
  | zero => rfl
  | succ n ih =>
    have hn : n < m.content.length := hk
    rw [ticksRun, ih (Nat.le_of_succ_le hk), tick]
    simp [hn]

lemma ticksRun_done (m : CallMessage) (j : Nat) :
    ticksRun (startTicker m) (m.content.length + 1 + j)
      = { message := m, charIndex := m.content.length, text := ""
          cleared := true, completions := 1 } := by
  induction j with
  | zero =>
    rw [ticksRun, ticksRun_le m m.content.length (Nat.le_refl _), tick]
    simp
  | succ n ih =>
    rw [show m.content.length + 1 + (n + 1) = (m.content.length + 1 + n) + 1 by omega,
        ticksRun, ih, tick]
    simp

/-- C4: the typewriter reveals non-strictly growing prefixes tick by tick,
never exceeds the message content, reaches exactly the full content at the
final revealing tick, and the tick sequence is finite: one tick after the last
character the interval clears itself, signals completion exactly once, and
all later ticks are no-ops (it never restarts). -/
theorem typewriter_monotone_terminates (c : String) (m : CallMessage) (t k j : Nat)
    (hk : k ≤ m.content.length) :
    (typeAdvance c t).data <+: (typeAdvance c (t + 1)).data
    ∧ (typeAdvance c t).length ≤ c.length
    ∧ typeAdvance c c.length = c
    ∧ ticksRun (startTicker m) k
        = { message := m, charIndex := k, text := typeAdvance m.content k
            cleared := false, completions := 0 }
    ∧ (ticksRun (startTicker m) m.content.length).text = m.content
    ∧ ticksRun (startTicker m) (m.content.length + 1 + j)
        = { message := m, charIndex := m.content.length, text := ""
            cleared := true, completions := 1 } := by
  refine ⟨List.take_prefix_take_left c.data (Nat.le_succ t), ?_, ?_, ticksRun_le m k hk, ?_, ticksRun_done m j⟩
  · show (c.data.take t).length ≤ c.data.length
    simp [List.length_take]
  · show (⟨c.data.take c.data.length⟩ : String) = c
    rw [List.take_length]
  · rw [ticksRun_le m m.content.length (Nat.le_refl _)]
    show (⟨m.content.data.take m.content.data.length⟩ : String) = m.content
    rw [List.take_length]

/-- Witness for C4 at the concrete message `demoQ1` (content `"Q1"`, length 2),
tick indices `t = 1`, `k = 1`, `j = 3`. -/
theorem typewriter_monotone_terminates_witness :
    1 ≤ demoQ1.content.length
    ∧ (ticksRun (startTicker demoQ1) demoQ1.content.length).text = demoQ1.content :=
  ⟨by decide, (typewriter_monotone_terminates "Q1" demoQ1 1 1 3 (by decide)).2.2.2.2.1⟩

/-- C7: every `Typing → Committed` transition commits a copy of the script
message whose content and role are exactly those of the source message, whose
id is the original id plus a `-`-separated fresh suffix, and whose timestamp is
the commit time; the copy is appended to the displayed list, the typing buffer
is cleared, and `isTyping` becomes false. Distinct stamps yield distinct ids
for replays of the same message across loops. -/
theorem commit_stamps_and_appends (m : CallMessage) (stamp timeStr s1 t1 s2 t2 : String)
    (s : PlaybackState) (hne : s1 ≠ s2) :
    (commitMessage m stamp timeStr).content = m.content
    ∧ (commitMessage m stamp timeStr).role = m.role
    ∧ (commitMessage m stamp timeStr).id = m.id ++ "-" ++ stamp
    ∧ (commitMessage m stamp timeStr).timestamp = timeStr
    ∧ (applyCommit m stamp timeStr s).displayedMessages
        = s.displayedMessages ++ [commitMessage m stamp timeStr]
    ∧ (applyCommit m stamp timeStr s).currentTypingText = ""
    ∧ (applyCommit m stamp timeStr s).isTyping = false
    ∧ (commitMessage m s1 t1).id ≠ (commitMessage m s2 t2).id := by
  refine ⟨rfl, rfl, rfl, rfl, rfl, rfl, rfl, fun h => hne ?_⟩
  exact string_append_left_cancel (m.id ++ "-") s1 s2 h

/-- Witness for C7: the seed message committed with stamps `"1"` and `"2"`. -/
theorem commit_stamps_and_appends_witness :
    ("1" : String) ≠ "2"
    ∧ (commitMessage demoSeed "1" "t1").id ≠ (commitMessage demoSeed "2" "t2").id
    ∧ (commitMessage demoSeed "1" "t1").content = demoSeed.content :=
  ⟨by decide,
   (commit_stamps_and_appends demoSeed "1" "t1" "1" "t1" "2" "t2" initialState (by decide)).2.2.2.2.2.2.2,
   (commit_stamps_and_appends demoSeed "1" "t1" "1" "t1" "2" "t2" initialState (by decide)).1⟩

/-- C8: whenever the live-demo effect schedules a typing run for message `m`
(a `Typing → Committed` transition), the resulting displayed list is the old
one with exactly the committed copy of `m` appended: length grows by one and
the old list is a prefix of the new one. A loop reset instead sends the
displayed list back to the seed state (the initially bound list
`transcript.slice(0, -1)`, of length one less than the transcript). -/
theorem displayed_append_only (ts cont : List CallMessage) (stamp timeStr : String)
    (s : PlaybackState) (m : CallMessage)
    (h : liveEffect ts cont s = some (.pauseThenType m)) :
    (stepLive ts cont stamp timeStr s).displayedMessages
        = s.displayedMessages ++ [commitMessage m stamp timeStr]
    ∧ (stepLive ts cont stamp timeStr s).displayedMessages.length
        = s.displayedMessages.length + 1
    ∧ s.displayedMessages <+: (stepLive ts cont stamp timeStr s).displayedMessages
    ∧ (applyLoopReset ts s).displayedMessages
        = (initEffect { id := "", status := .in_progress, transcript := ts } initialState).displayedMessages
    ∧ (applyLoopReset ts s).displayedMessages.length = ts.length - 1 := by
  rw [stepLive, h]
  refine ⟨rfl, by simp [applyCommit], ⟨[commitMessage m stamp timeStr], rfl⟩, rfl, ?_⟩
  simp [applyLoopReset]

/-- Witness for C8: the state just after binding `demoCall`, whose scheduled
action types the seed message. -/
theorem displayed_append_only_witness :
    liveEffect [demoSeed] [demoQ1, demoA1] (initEffect demoCall initialState)
        = some (.pauseThenType demoSeed)
    ∧ (stepLive [demoSeed] [demoQ1, demoA1] "7" "t7" (initEffect demoCall initialState)).displayedMessages
        = (initEffect demoCall initialState).displayedMessages ++ [commitMessage demoSeed "7" "t7"] :=
  ⟨by decide,
   (displayed_append_only [demoSeed] [demoQ1, demoA1] "7" "t7" (initEffect demoCall initialState)
     demoSeed (by decide)).1⟩

/-- C5: for a call that is not `in_progress`, binding immediately shows the
whole historical transcript, `isTyping` is false, the live-demo effect
schedules no timer at all, and any number of playback steps leaves the state
unchanged (zero ticks ever fire). -/
theorem static_binding_shows_all (call : CallRecord) (cont : List CallMessage)
    (f g : Nat → String) (k : Nat) (h : call.status ≠ .in_progress) :
    (initEffect call initialState).displayedMessages = call.transcript
    ∧ (initEffect call initialState).isTyping = false
    ∧ liveEffect call.transcript cont (initEffect call initialState) = some .noTimer
    ∧ (bindSession cont call).pausePending = none
    ∧ (bindSession cont call).typeInterval = none
    ∧ (bindSession cont call).loopPending = false
    ∧ runLive call.transcript cont f g k (initEffect call initialState)
        = initEffect call initialState := by
  have hLive : (initEffect call initialState).isLiveDemo = false := by
    simp [initEffect, h]
  refine ⟨by simp [initEffect, h], by simp [initEffect, h, initialState],
          liveEffect_off _ _ _ hLive, ?_, ?_, ?_,
          runLive_off _ _ _ _ k _ hLive⟩ <;>
    simp [bindSession, runLiveEffect, liveEffect_off _ _ _ hLive]

/-- Witness for C5 at the five-message completed call `staticCall`. -/
theorem static_binding_shows_all_witness :
    staticCall.status ≠ .in_progress
    ∧ (initEffect staticCall initialState).displayedMessages = staticCall.transcript
    ∧ runLive staticCall.transcript simulatedContinuation stepStamp stepStamp 3
        (initEffect staticCall initialState) = initEffect staticCall initialState :=
  ⟨by decide,
   (static_binding_shows_all staticCall simulatedContinuation stepStamp stepStamp 3 (by decide)).1,
   (static_binding_shows_all staticCall simulatedContinuation stepStamp stepStamp 3
     (by decide)).2.2.2.2.2.2⟩

/-- Counterexample to C6 as stated: an `in_progress` call with an empty
transcript does not stay idle — binding schedules the pre-typing pause timer
for the first continuation message, and one playback step makes the displayed
list non-empty. -/
theorem empty_transcript_live_not_idle :
    liveEffect [] simulatedContinuation (initEffect emptyCall initialState)
        = some (.pauseThenType
            { id := "sim1", role := .customer, content := "我想点一份宫保鸡丁", timestamp := "" })
    ∧ (bindSession simulatedContinuation emptyCall).pausePending ≠ none
    ∧ (runLive [] simulatedContinuation stepStamp stepStamp 1
        (initEffect emptyCall initialState)).displayedMessages ≠ [] := by decide

/-- C6 as amended: a call with an empty transcript whose status is not
`in_progress` stays idle — the displayed list is empty, the live-demo effect
schedules no timer, and playback steps never change the state. -/
theorem empty_static_transcript_stays_idle (call : CallRecord) (cont : List CallMessage)
    (f g : Nat → String) (k : Nat)
    (h : call.status ≠ .in_progress) (he : call.transcript = []) :
    (initEffect call initialState).displayedMessages = []
    ∧ liveEffect call.transcript cont (initEffect call initialState) = some .noTimer
    ∧ (bindSession cont call).pausePending = none
    ∧ (bindSession cont call).typeInterval = none
    ∧ (bindSession cont call).loopPending = false
    ∧ runLive call.transcript cont f g k (initEffect call initialState)
        = initEffect call initialState := by
  have hLive : (initEffect call initialState).isLiveDemo = false := by
    simp [initEffect, h]
  refine ⟨by simp [initEffect, h, he], liveEffect_off _ _ _ hLive, ?_, ?_, ?_,
          runLive_off _ _ _ _ k _ hLive⟩ <;>
    simp [bindSession, runLiveEffect, liveEffect_off _ _ _ hLive]

/-- Witness for the amended C6 at a missed call with an empty transcript. -/
theorem empty_static_transcript_stays_idle_witness :
    ({ id := "cM", status := .missed, transcript := [] } : CallRecord).status ≠ .in_progress
    ∧ ({ id := "cM", status := .missed, transcript := [] } : CallRecord).transcript = []
    ∧ (initEffect { id := "cM", status := .missed, transcript := [] } initialState).displayedMessages = [] :=
  ⟨by decide, by decide,
   (empty_static_transcript_stays_idle { id := "cM", status := .missed, transcript := [] }
     simulatedContinuation stepStamp stepStamp 2 (by decide) (by decide)).1⟩

/-- C9: the live-demo effect is total — for every state it decides on an
action, never hitting an out-of-bounds access to `allMessages[messageIndex]`
(the only fallible operation of a scheduling tick); and an in-progress call
with an empty transcript degrades gracefully: the live playlist is just the
continuation (the seed is absent) and binding shows an empty list while still
enabling the live demo. -/
theorem live_effect_total_seedless_ok (ts cont : List CallMessage) (s : PlaybackState) :
    (liveEffect ts cont s).isSome = true
    ∧ allMessages [] cont = cont
    ∧ (initEffect emptyCall initialState).displayedMessages = []
    ∧ (initEffect emptyCall initialState).isLiveDemo = true := by
  refine ⟨?_, rfl, rfl, rfl⟩
  by_cases h1 : s.isLiveDemo = false
  · simp [liveEffect, h1]
  · by_cases h2 : (allMessages ts cont).length ≤ s.messageIndex
    · simp [liveEffect, h1, h2]
    · have hlt := Nat.not_le.mp h2
      simp [liveEffect, h1, h2, List.getElem?_eq_getElem hlt]

/-- C10: for an in-progress call with a non-empty transcript (written
`pre ++ [seed]`), binding displays exactly the transcript minus its last
message; the live playlist starts with that last message (the seed), the first
playback step of the bound state commits the animated seed, and after any loop
reset the next step commits the animated seed again — the seed opens every
cycle instead of being pre-displayed. -/
theorem seed_animated_not_predisplayed (call : CallRecord) (cont pre : List CallMessage)
    (seed : CallMessage) (f g : Nat → String)
    (h : call.status = .in_progress) (ht : call.transcript = pre ++ [seed]) :
    (initEffect call initialState).displayedMessages = pre
    ∧ allMessages call.transcript cont = seed :: cont
    ∧ (runLive call.transcript cont f g 1 (initEffect call initialState)).displayedMessages
        = pre ++ [commitMessage seed (f 0) (g 0)]
    ∧ ∀ s : PlaybackState, s.isLiveDemo = true →
        (stepLive call.transcript cont (f 0) (g 0)
            (applyLoopReset call.transcript s)).displayedMessages
          = pre ++ [commitMessage seed (f 0) (g 0)] := by
  have hAll : allMessages call.transcript cont = seed :: cont := by
    have hlen : (pre ++ [seed]).length - 1 = pre.length := by simp
    simp only [allMessages, lastSlice, ht, hlen, List.drop_left]
    rfl
  have hd : call.transcript.dropLast = pre := by
    rw [ht]; exact List.dropLast_concat
  have hs0 : (initEffect call initialState).isLiveDemo = true := by simp [initEffect, h]
  have hidx : (initEffect call initialState).messageIndex = 0 := by simp [initEffect, h]
  have heff : ∀ s : PlaybackState, s.isLiveDemo = true → s.messageIndex = 0 →
      liveEffect call.transcript cont s = some (.pauseThenType seed) := by
    intro s hl hi
    simp [liveEffect, hl, hi, hAll]
  refine ⟨by simp [initEffect, h, hd], hAll, ?_, ?_⟩
  · show (stepLive call.transcript cont (f 0) (g 0)
        (runLive call.transcript cont f g 0 (initEffect call initialState))).displayedMessages = _
    rw [show runLive call.transcript cont f g 0 (initEffect call initialState)
          = initEffect call initialState from rfl,
        stepLive, heff _ hs0 hidx]
    simp [applyCommit, initEffect, h, hd]
  · intro s hs
    rw [stepLive, heff _ (by simpa [applyLoopReset] using hs) (by simp [applyLoopReset])]
    simp [applyCommit, applyLoopReset, hd]

/-- Witness for C10 at `demoCall` (transcript `[] ++ [demoSeed]`). -/
theorem seed_animated_not_predisplayed_witness :
    demoCall.status = .in_progress
    ∧ demoCall.transcript = [] ++ [demoSeed]
    ∧ allMessages demoCall.transcript [demoQ1, demoA1] = demoSeed :: [demoQ1, demoA1]
    ∧ (stepLive demoCall.transcript [demoQ1, demoA1] (stepStamp 0) (stepStamp 0)
        (applyLoopReset demoCall.transcript (initEffect demoCall initialState))).displayedMessages
      = [] ++ [commitMessage demoSeed (stepStamp 0) (stepStamp 0)] := by
  have h := seed_animated_not_predisplayed demoCall [demoQ1, demoA1] [] demoSeed
    stepStamp stepStamp (by decide) (by decide)
  exact ⟨by decide, by decide, h.2.1, h.2.2.2 (initEffect demoCall initialState) (by decide)⟩

/-- Counterexample to C2 as stated: for the in-progress call with transcript
`[demoSeed]` and the code's continuation of length N = 12, after N
`Typing → Committed` transitions the engine is not in its cooldown — the next
scheduled action is another typing run, the displayed list (12 entries) is not
the seed-only initial state (0 entries), and the cursor is not 0. The cycle
closes only after N + 1 commits, because the live playlist also contains the
seed. -/
theorem continuation_length_commits_no_reset :
    simulatedContinuation.length = 12
    ∧ liveEffect [demoSeed] simulatedContinuation
        (runLive [demoSeed] simulatedContinuation stepStamp stepStamp 12
          (initEffect demoCall initialState)) ≠ some .loopReset
    ∧ (runLive [demoSeed] simulatedContinuation stepStamp stepStamp 12
        (initEffect demoCall initialState)).displayedMessages
      ≠ (initEffect demoCall initialState).displayedMessages
    ∧ (runLive [demoSeed] simulatedContinuation stepStamp stepStamp 12
        (initEffect demoCall initialState)).messageIndex ≠ 0 := by decide

/-- C2 as amended: for every in-progress call and continuation, after
`L = (allMessages transcript continuation).length` commits (the seed, when the
transcript is non-empty, plus the continuation) followed by the cooldown
reset, the displayed list and the cursor are exactly those of the initial
bound state — displayed equals `transcript.slice(0, -1)` and the cursor is 0. -/
theorem loop_reset_restores_initial_state (call : CallRecord) (cont : List CallMessage)
    (f g : Nat → String) (h : call.status = .in_progress) :
    (runLive call.transcript cont f g ((allMessages call.transcript cont).length + 1)
        (initEffect call initialState)).displayedMessages
      = (initEffect call initialState).displayedMessages
    ∧ (runLive call.transcript cont f g ((allMessages call.transcript cont).length + 1)
        (initEffect call initialState)).messageIndex = 0
    ∧ (initEffect call initialState).displayedMessages = call.transcript.dropLast
    ∧ (initEffect call initialState).messageIndex = 0 := by
  have hLive : (initEffect call initialState).isLiveDemo = true := by simp [initEffect, h]
  have hidx : (initEffect call initialState).messageIndex = 0 := by simp [initEffect, h]
  obtain ⟨hiL, hlL⟩ := runLive_index call.transcript cont f g (initEffect call initialState)
    hLive hidx (allMessages call.transcript cont).length (Nat.le_refl _)
  rw [runLive, stepLive, liveEffect_of_ge _ _ _ hlL (by rw [hiL])]
  exact ⟨by simp [applyLoopReset, initEffect, h], rfl, by simp [initEffect, h], hidx⟩

/-- Witness for the amended C2 at `demoCall` with the two-message continuation
`[demoQ1, demoA1]` (so L = 3). -/
theorem loop_reset_restores_initial_state_witness :
    demoCall.status = .in_progress
    ∧ (runLive demoCall.transcript [demoQ1, demoA1] stepStamp stepStamp
        ((allMessages demoCall.transcript [demoQ1, demoA1]).length + 1)
        (initEffect demoCall initialState)).displayedMessages
      = (initEffect demoCall initialState).displayedMessages
    ∧ (runLive demoCall.transcript [demoQ1, demoA1] stepStamp stepStamp
        ((allMessages demoCall.transcript [demoQ1, demoA1]).length + 1)
        (initEffect demoCall initialState)).messageIndex = 0 :=
  ⟨by decide,
   (loop_reset_restores_initial_state demoCall [demoQ1, demoA1] stepStamp stepStamp (by decide)).1,
   (loop_reset_restores_initial_state demoCall [demoQ1, demoA1] stepStamp stepStamp (by decide)).2.1⟩

/-- Counterexample to C3 as stated: for the script with seed `"A"` (assistant)
and continuation `[Q1 (customer), A1 (assistant)]`, the first committed
message of the cycle is the seed `"A"`, not `Q1`; the cooldown resets the
displayed list to empty (the transcript minus the seed), not to the seed
`"A"` alone. -/
theorem cycle_commits_seed_first :
    ((runLive [demoSeed] [demoQ1, demoA1] stepStamp stepStamp 1
        (initEffect demoCall initialState)).displayedMessages.map (fun m => m.content)) = ["A"]
    ∧ ((runLive [demoSeed] [demoQ1, demoA1] stepStamp stepStamp 4
        (initEffect demoCall initialState)).displayedMessages.map (fun m => m.content)) = []
    ∧ (runLive [demoSeed] [demoQ1, demoA1] stepStamp stepStamp 4
        (initEffect demoCall initialState)).displayedMessages ≠ [demoSeed] := by decide

/-- C3 as amended: on the seed-`"A"` script with continuation `[Q1, A1]`, each
cycle commits exactly `A`, `Q1`, `A1` in that order (three messages per
cycle); the cooldown then restores the bound state exactly (displayed empty,
cursor 0), and the next cycle again opens by committing `A` — an infinite
periodic sequence with period 3 commits per cycle. -/
theorem demo_cycle_period_three :
    ((runLive [demoSeed] [demoQ1, demoA1] stepStamp stepStamp 3
        (initEffect demoCall initialState)).displayedMessages.map (fun m => m.content))
      = ["A", "Q1", "A1"]
    ∧ runLive [demoSeed] [demoQ1, demoA1] stepStamp stepStamp 4
        (initEffect demoCall initialState) = initEffect demoCall initialState
    ∧ ((runLive [demoSeed] [demoQ1, demoA1] stepStamp stepStamp 5
        (initEffect demoCall initialState)).displayedMessages.map (fun m => m.content))
      = ["A"] := by decide

/-- First historical message of the call that is bound first in the rebinding
scenario. -/
def staleA0 : CallMessage := { id := "a0", role := .customer, content := "x", timestamp := "t0" }

/-- Seed of the first call; it is mid-typing when the rebind happens. -/
def staleA1 : CallMessage := { id := "a1", role := .ai, content := "hi", timestamp := "t1" }

/-- First historical message of the call that is bound second. -/
def staleB0 : CallMessage := { id := "b0", role := .customer, content := "y", timestamp := "t2" }

/-- Seed of the call that is bound second. -/
def staleB1 : CallMessage := { id := "b1", role := .ai, content := "ok", timestamp := "t3" }

/-- The in-progress call bound first. -/
def callA : CallRecord := { id := "A", status := .in_progress, transcript := [staleA0, staleA1] }

/-- The in-progress call the component is rebound to mid-typing. -/
def callB : CallRecord := { id := "B", status := .in_progress, transcript := [staleB0, staleB1] }

/-- `callA` bound, the pause timer fired and one character of the seed typed:
the component is mid-`Typing`, with the `typeTimer` interval running. -/
def midTypingSession : LiveSession :=
  fireTypeTick "s1" "u1" (firePause (bindSession simulatedContinuation callA))

/-- The session after rebinding the mid-typing component to `callB`. -/
def reboundSession : LiveSession := rebind simulatedContinuation callB midTypingSession

/-- C1 is violated by the code: rebinding mid-`Typing` does not cancel the
per-character interval of the old binding. The effect cleanup (line 664) only
clears `pauseTimer`; the `clearInterval(typeTimer)` at line 661 is the return
value of the `setTimeout` callback, which `setTimeout` discards. After
rebinding `callA → callB`, the old interval (typing `callA`'s seed `staleA1`)
is still armed, its next tick overwrites the new binding's typing buffer with
text of the old call, and the tick after that commits the old call's message
into the new binding's displayed list and advances its cursor. -/
theorem stale_interval_survives_rebind :
    midTypingSession.typeInterval = some (staleA1, 1)
    ∧ reboundSession.typeInterval = some (staleA1, 1)
    ∧ reboundSession.state.displayedMessages = [staleB0]
    ∧ (fireTypeTick "s2" "u2" reboundSession).state.currentTypingText = staleA1.content
    ∧ (fireTypeTick "s3" "u3" (fireTypeTick "s2" "u2" reboundSession)).state.displayedMessages
        = [staleB0, commitMessage staleA1 "s3" "u3"]
    ∧ (fireTypeTick "s3" "u3" (fireTypeTick "s2" "u2" reboundSession)).state.messageIndex = 1 := by
  decide

end IOrderPortal
